import Mathlib

/-!
Shallow embedding of the conversation state & escalation coordinator of the
vk-travel-bot repository, together with proofs checking the specification's
claims against it.

The embedding covers:
* the JavaScript string transformations used by the webhook handler
  (`[MANAGER_REQUEST]` marker stripping, `String.prototype.trim`,
  the phone-detection regular expression) and by `VKService.cleanMarkdown`;
* the conversation store (history from `src/database/memoryDb.js` and
  `src/database/db.js`; the pause / bot-message-id operations, whose
  implementation file is absent from the snapshot, are modelled from the
  spec's §4.1 contract);
* the webhook POST handler of `src/index.js` (`part_004`), with the external
  collaborators (VK profile fetch, OpenAI assistant, Telegram) supplied as
  oracle values, and exception propagation modelled by explicit abort paths;
* `TelegramService.sendLeadNotification` / `sendManagerRequestNotification`
  live-notification collapse logic.
-/

/-! ### JavaScript character classes -/

/-- Character class of the JavaScript `\s` escape, restricted to the code
points that can occur in the texts this system handles (ASCII whitespace and
NBSP; the exotic Unicode space code points are omitted). Also the class used
by `String.prototype.trim`. -/
def isJsWs (c : Char) : Bool :=
  c.toNat = 9 || c.toNat = 10 || c.toNat = 11 || c.toNat = 12 ||
  c.toNat = 13 || c.toNat = 32 || c.toNat = 160

/-- Characters NOT matched by the JavaScript `.` (dot) without the `s` flag:
line terminators. -/
def isJsLineTerm (c : Char) : Bool :=
  c.toNat = 10 || c.toNat = 13 || c.toNat = 8232 || c.toNat = 8233

/-- JavaScript `\d`: the ASCII digits. -/
def isDigitCh (c : Char) : Bool := '0' ≤ c && c ≤ '9'

/-- Separator class `[\s\-]` of the phone regular expression. -/
def isSepCh (c : Char) : Bool := isJsWs c || c = '-'

/-! ### List-of-characters helpers -/

/-- `startsWithL pat l` holds when `pat` occurs at the head of `l`. -/
def startsWithL : List Char → List Char → Bool
  | [], _ => true
  | _ :: _, [] => false
  | p :: ps, c :: cs => p = c && startsWithL ps cs

/-- `containsSub pat l`: `pat` occurs contiguously somewhere in `l`
(the semantics of JavaScript `String.prototype.includes`). -/
def containsSub (pat : List Char) : List Char → Bool
  | [] => startsWithL pat []
  | c :: rest => startsWithL pat (c :: rest) || containsSub pat rest

/-- Leading-whitespace removal (one half of `String.prototype.trim`). -/
def dropWsL (l : List Char) : List Char := l.dropWhile isJsWs

/-- `String.prototype.trim` on character lists. -/
def trimWsL (l : List Char) : List Char :=
  ((l.dropWhile isJsWs).reverse.dropWhile isJsWs).reverse

theorem startsWithL_length {pat l : List Char} (h : startsWithL pat l = true) :
    pat.length ≤ l.length := by
  induction pat generalizing l with
  | nil => exact Nat.zero_le _
  | cons p ps ih =>
    cases l with
    | nil => simp [startsWithL] at h
    | cons c cs =>
      simp only [startsWithL, Bool.and_eq_true] at h
      simpa [List.length] using Nat.succ_le_succ (ih h.2)

theorem lengthDropWhileLe (p : Char → Bool) (l : List Char) :
    (l.dropWhile p).length ≤ l.length := by
  induction l with
  | nil => simp
  | cons c cs ih =>
    by_cases h : p c
    · simpa [List.dropWhile_cons, h] using Nat.le_succ_of_le ih
    · simp [List.dropWhile_cons, h]

theorem dropWsL_length (l : List Char) : (dropWsL l).length ≤ l.length :=
  lengthDropWhileLe isJsWs l

/-- If `pat` occurs in `l`, it still occurs after prepending on the left. -/
theorem containsSub_append_left (pat x l : List Char)
    (h : containsSub pat l = true) : containsSub pat (x ++ l) = true := by
  induction x with
  | nil => simpa using h
  | cons c cs ih =>
    simp only [List.cons_append, containsSub, Bool.or_eq_true]
    right
    exact ih

theorem startsWithL_append (pat l y : List Char)
    (h : startsWithL pat l = true) : startsWithL pat (l ++ y) = true := by
  induction pat generalizing l with
  | nil => simp [startsWithL]
  | cons p ps ih =>
    cases l with
    | nil => simp [startsWithL] at h
    | cons c cs =>
      simp only [startsWithL, Bool.and_eq_true] at h
      simp only [List.cons_append, startsWithL, Bool.and_eq_true]
      exact ⟨h.1, ih cs h.2⟩

/-- If `pat` occurs in `l`, it still occurs after appending on the right. -/
theorem containsSub_append_right (pat l y : List Char)
    (h : containsSub pat l = true) : containsSub pat (l ++ y) = true := by
  induction l with
  | nil =>
    simp only [containsSub] at h
    cases pat with
    | nil => cases y <;> simp [containsSub, startsWithL]
    | cons p ps => simp [startsWithL] at h
  | cons c cs ih =>
    simp only [containsSub, Bool.or_eq_true] at h
    simp only [List.cons_append, containsSub, Bool.or_eq_true]
    rcases h with h | h
    · exact Or.inl (startsWithL_append pat (c :: cs) y h)
    · exact Or.inr (ih h)

/-- Occurrence inside a middle segment gives occurrence in the whole. -/
theorem containsSub_of_middle (pat a t b : List Char)
    (h : containsSub pat t = true) : containsSub pat (a ++ t ++ b) = true := by
  have := containsSub_append_left pat a (t ++ b) (containsSub_append_right pat t b h)
  simpa [List.append_assoc] using this

/-- `trimWsL l` is a contiguous segment of `l`. -/
theorem trimWsL_middle (l : List Char) :
    ∃ a b, l = a ++ trimWsL l ++ b := by
  refine ⟨l.takeWhile isJsWs,
    ((l.dropWhile isJsWs).reverse.takeWhile isJsWs).reverse, ?_⟩
  have h1 : l.takeWhile isJsWs ++ l.dropWhile isJsWs = l :=
    List.takeWhile_append_dropWhile isJsWs l
  have h2 : (l.dropWhile isJsWs).reverse.takeWhile isJsWs ++
      (l.dropWhile isJsWs).reverse.dropWhile isJsWs =
      (l.dropWhile isJsWs).reverse :=
    List.takeWhile_append_dropWhile isJsWs (l.dropWhile isJsWs).reverse
  have h3 : l.dropWhile isJsWs =
      ((l.dropWhile isJsWs).reverse.dropWhile isJsWs).reverse ++
      ((l.dropWhile isJsWs).reverse.takeWhile isJsWs).reverse := by
    have h4 := congrArg List.reverse h2
    rw [List.reverse_append, List.reverse_reverse] at h4
    exact h4.symm
  calc l = l.takeWhile isJsWs ++ l.dropWhile isJsWs := h1.symm
    _ = l.takeWhile isJsWs ++
        (((l.dropWhile isJsWs).reverse.dropWhile isJsWs).reverse ++
         ((l.dropWhile isJsWs).reverse.takeWhile isJsWs).reverse) := by rw [← h3]
    _ = l.takeWhile isJsWs ++ trimWsL l ++
        ((l.dropWhile isJsWs).reverse.takeWhile isJsWs).reverse := by
        simp [trimWsL, List.append_assoc]

/-- A pattern occurring in the trimmed list occurs in the original list. -/
theorem containsSub_of_trim (pat l : List Char)
    (h : containsSub pat (trimWsL l) = true) : containsSub pat l = true := by
  obtain ⟨a, b, hl⟩ := trimWsL_middle l
  rw [hl]
  exact containsSub_of_middle pat a (trimWsL l) b h

/-! ### The human-request marker

`src/index.js` (part_004) step 8:
`aiResponse.includes('[MANAGER_REQUEST]')` and
`aiResponse.replace(/\s*\[MANAGER_REQUEST\]\s*/g, '').trim()`. -/

/-- The literal in-band sentinel the assistant may embed in a reply. -/
def markerChars : List Char := "[MANAGER_REQUEST]".data

/-- One attempt of the pattern `\s*\[MANAGER_REQUEST\]\s*` anchored at the
head of `l`. Because the marker's first character is not whitespace, the
backtracking search of the JavaScript engine succeeds here exactly when the
marker follows the maximal whitespace run, and the trailing `\s*` is greedy;
on success the remainder of the string after the match is returned. -/
def tryMarker (l : List Char) : Option (List Char) :=
  let l1 := dropWsL l
  if startsWithL markerChars l1 then
    some (dropWsL (l1.drop markerChars.length))
  else none

theorem tryMarker_shrink {l r : List Char} (h : tryMarker l = some r) :
    r.length < l.length := by
  unfold tryMarker at h
  by_cases hs : startsWithL markerChars (dropWsL l) = true
  · simp only [hs, if_true] at h
    have h1 : markerChars.length ≤ (dropWsL l).length := startsWithL_length hs
    have h2 : ((dropWsL l).drop markerChars.length).length =
        (dropWsL l).length - markerChars.length := List.length_drop _ _
    have h3 : r.length ≤ (dropWsL l).length - markerChars.length := by
      have := dropWsL_length ((dropWsL l).drop markerChars.length)
      rw [h2] at this
      have hr : r = dropWsL ((dropWsL l).drop markerChars.length) := by
        exact (Option.some.injEq _ _ ▸ h).symm
      rw [hr]
      exact this
    have hm : 17 ≤ (dropWsL l).length := by
      have : markerChars.length = 17 := by decide
      omega
    have h4 : (dropWsL l).length ≤ l.length := dropWsL_length l
    have : markerChars.length = 17 := by decide
    omega
  · simp only [hs, if_false] at h
    cases h

/-- Worker for `replaceMarkerG`, structurally recursive on a fuel bound.
`tryMarker` consumes at least the marker on success (`tryMarker_shrink`), so
fuel equal to the input length never runs out; the fuel-0 equation is only
reachable with an empty input. -/
def replaceMarkerGo : Nat → List Char → List Char
  | 0, l => l
  | _ + 1, [] => []
  | fuel + 1, c :: rest =>
    match tryMarker (c :: rest) with
    | some r => replaceMarkerGo fuel r
    | none => c :: replaceMarkerGo fuel rest

/-- `aiResponse.replace(/\s*\[MANAGER_REQUEST\]\s*/g, '')`: the global
replacement scans the original string left to right, removing each match;
removed spans are not rescanned, and — as in the JavaScript engine — the
parts assembled around the removed spans are not rescanned either. -/
def replaceMarkerG (l : List Char) : List Char := replaceMarkerGo l.length l

/-- `text.includes('[MANAGER_REQUEST]')`. -/
def containsMarker (s : String) : Bool := containsSub markerChars s.data

/-- `String.prototype.trim`. -/
def jsTrim (s : String) : String := String.mk (trimWsL s.data)

/-- The cleaned customer-facing reply computed by step 8 of the webhook
handler: `aiResponse.replace(/\s*\[MANAGER_REQUEST\]\s*/g, '').trim()`. -/
def cleanReply (s : String) : String := String.mk (trimWsL (replaceMarkerG s.data))

/-! ### `VKService.cleanMarkdown` (part_001, lines 69-76)

Five sequential global replacements, each of the shape `/D(.+?)D/g → '$1'`
for a delimiter `D`; `.` does not match line terminators and `(.+?)` is lazy,
so the shortest non-empty delimiter-free-on-the-right inner text is taken. -/

/-- Search for the lazy body of `/D(.+?)D/g` in the text following an opening
delimiter: the shortest non-empty run of non-line-terminator characters that
is immediately followed by the closing delimiter. Returns the run and the
text after the closing delimiter. -/
def findClose (delim : List Char) : List Char → Option (List Char × List Char)
  | [] => none
  | c :: rest =>
    if isJsLineTerm c then none
    else if startsWithL delim rest then some ([c], rest.drop delim.length)
    else
      match findClose delim rest with
      | some (inner, r) => some (c :: inner, r)
      | none => none

theorem findClose_shrink (delim : List Char) :
    ∀ {l inner r : List Char}, findClose delim l = some (inner, r) →
      r.length < l.length := by
  intro l
  induction l with
  | nil => intro inner r h; cases h
  | cons c rest ih =>
    intro inner r h
    unfold findClose at h
    split at h
    · cases h
    · split at h
      · cases h
        have h2 := List.length_drop delim.length rest
        simp only [List.length_cons]
        omega
      · cases hrec : findClose delim rest with
        | none => rw [hrec] at h; cases h
        | some p =>
          cases p with
          | mk inner2 r2 =>
            rw [hrec] at h
            cases h
            have hlt := ih hrec
            simp only [List.length_cons]
            omega

/-- Worker for `replaceDelimG`, structurally recursive on a fuel bound; a
successful match consumes at least the closing delimiter and one inner
character (`findClose_shrink`), so fuel equal to the input length never runs
out and the fuel-0 equation is only reachable with an empty input. -/
def replaceDelimGo (delim : List Char) : Nat → List Char → List Char
  | 0, l => l
  | _ + 1, [] => []
  | fuel + 1, c :: rest =>
    if startsWithL delim (c :: rest) then
      match findClose delim ((c :: rest).drop delim.length) with
      | some (inner, r) => inner ++ replaceDelimGo delim fuel r
      | none => c :: replaceDelimGo delim fuel rest
    else c :: replaceDelimGo delim fuel rest

/-- One global pass `/D(.+?)D/g → '$1'` over the input, scanning left to
right; failed positions advance by one character, successful matches emit the
inner text and continue after the closing delimiter. -/
def replaceDelimG (delim l : List Char) : List Char := replaceDelimGo delim l.length l

/-- `VKService.cleanMarkdown`: strips `**bold**`, `*italic*`, `__underline__`,
`_italic_` and backtick code spans, in that order (part_001 lines 69-76). -/
def cleanMarkdown (s : String) : String :=
  String.mk (replaceDelimG [Char.ofNat 96]
    (replaceDelimG ['_']
      (replaceDelimG ['_', '_']
        (replaceDelimG ['*']
          (replaceDelimG ['*', '*'] s.data)))))

/-! ### The phone-detection pattern (part_004, line 119)

`/(\+7|8)?[\s\-]?\(?\d{3}\)?[\s\-]?\d{3}[\s\-]?\d{2}[\s\-]?\d{2}/`
(no `g` flag). The pattern is a chain of independent choice points, each
tried greedily first; the JavaScript engine backtracks the rightmost choice
point first, which is exactly a nested first-success search with the
leftmost choice in the outermost loop. -/

/-- Remainders a single optional character-class token `[..]?` can leave,
greedy alternative first. -/
def optTok (p : Char → Bool) (l : List Char) : List (List Char) :=
  match l with
  | c :: rest => if p c then [rest, l] else [l]
  | [] => [l]

/-- Remainders an optional literal `lit?` can leave, greedy first. -/
def optLit (lit : List Char) (l : List Char) : List (List Char) :=
  if startsWithL lit l then [l.drop lit.length, l] else [l]

/-- Remainders of the alternation-with-option `(\+7|8)?`, in the order the
JavaScript engine tries them. -/
def phonePreAlts (l : List Char) : List (List Char) :=
  (if startsWithL ['+', '7'] l then [l.drop 2] else []) ++
  (if startsWithL ['8'] l then [l.drop 1] else []) ++ [l]

/-- Exactly `n` digits (`\d{n}`). -/
def digitsN : Nat → List Char → Option (List Char)
  | 0, l => some l
  | n + 1, c :: rest => if isDigitCh c then digitsN n rest else none
  | _ + 1, [] => none

/-- First success over a list of candidate remainders. -/
def firstSome {β : Type} (f : List Char → Option β) : List (List Char) → Option β
  | [] => none
  | a :: as =>
    match f a with
    | some b => some b
    | none => firstSome f as

/-- Attempt of the whole phone pattern anchored at the head of `l`; on
success, returns the remainder after the match (so the matched substring is
the consumed part). -/
def matchPhoneAt (l : List Char) : Option (List Char) :=
  firstSome (fun l1 =>
    firstSome (fun l2 =>
      firstSome (fun l3 =>
        (digitsN 3 l3).bind (fun l4 =>
          firstSome (fun l5 =>
            firstSome (fun l6 =>
              (digitsN 3 l6).bind (fun l7 =>
                firstSome (fun l8 =>
                  (digitsN 2 l8).bind (fun l9 =>
                    firstSome (fun l10 => digitsN 2 l10)
                      (optTok isSepCh l9)))
                  (optTok isSepCh l7)))
              (optTok isSepCh l5))
            (optLit [')'] l4)))
        (optLit ['('] l2))
      (optTok isSepCh l1))
    (phonePreAlts l)

/-- The leftmost match of the phone pattern: scan start positions left to
right (as `RegExp.prototype.test` / `String.prototype.match` do) and return
the matched substring. -/
def phoneFindL : List Char → Option (List Char)
  | [] =>
    match matchPhoneAt [] with
    | some _ => some []
    | none => none
  | c :: t =>
    match matchPhoneAt (c :: t) with
    | some rest => some ((c :: t).take ((c :: t).length - rest.length))
    | none => phoneFindL t

/-- `phoneRegex.test(messageText)`. -/
def phoneTest (s : String) : Bool := (phoneFindL s.data).isSome

/-- `messageText.match(phoneRegex)[0]` — the first matched substring. -/
def phoneMatch (s : String) : Option String :=
  (phoneFindL s.data).map String.mk

/-! ### Conversation store

History operations follow `src/database/memoryDb.js` (volatile backend) and
`src/database/db.js` (durable backend). The pause and bot-message-id
operations called by the webhook handler (`pauseBot`, `isBotPaused`,
`isBotMessage`, `trackBotMessage`) have no implementation file in the
snapshot — only their call sites exist — so they are modelled from the
spec's §4.1 contract. -/

/-- A stored history entry (`{role, content, timestamp}` in memoryDb). -/
structure StoredMsg where
  role : String
  content : String
  timestamp : Nat
deriving DecidableEq, Repr

/-- First-match association lookup (JavaScript `Map.get` / `Map.has`,
keys being unique in a `Map`). -/
def findAssoc {β : Type} : List (String × β) → String → Option β
  | [], _ => none
  | (k, v) :: rest, key => if k = key then some v else findAssoc rest key

/-- Helper of `memSave`: append the message to the (unique) entry of `pid`. -/
def memSetAppend : List (String × List StoredMsg) → String → StoredMsg →
    List (String × List StoredMsg)
  | [], _, _ => []
  | e :: rest, pid, msg =>
    if e.1 = pid then (e.1, e.2 ++ [msg]) :: rest
    else e :: memSetAppend rest pid msg

/-- `MemoryDatabase.saveMessage` (memoryDb.js lines 24-42): create the entry
on first use, then push `{role, content, timestamp}` at the end (Map keys
are unique, so updating the first matching entry is the Map mutation). -/
def memSave (m : List (String × List StoredMsg)) (pid role content : String)
    (ts : Nat) : List (String × List StoredMsg) :=
  match findAssoc m pid with
  | none => m ++ [(pid, [⟨role, content, ts⟩])]
  | some _ => memSetAppend m pid ⟨role, content, ts⟩

/-- `messages.slice(-limit)`: the last `limit` elements — except that
JavaScript evaluates `slice(-0)` as `slice(0)`, the whole array. -/
def sliceLast {α : Type} (l : List α) (limit : Nat) : List α :=
  if limit = 0 then l else l.drop (l.length - limit)

/-- `MemoryDatabase.getChatHistory` (memoryDb.js lines 47-67): last `limit`
messages of the conversation, projected to `(role, content)`. -/
def memGetChatHistory (m : List (String × List StoredMsg)) (pid : String)
    (limit : Nat) : List (String × String) :=
  match findAssoc m pid with
  | none => []
  | some msgs => (sliceLast msgs limit).map (fun ms => (ms.role, ms.content))

/-- `Database.getChatHistory` (db.js lines 60-80): `ORDER BY created_at DESC
LIMIT limit`, then reverse into chronological order. `rows` is the
conversation's rows in insertion order; `created_at` is assumed strictly
increasing along it. -/
def pgGetChatHistory (rows : List (String × String)) (limit : Nat) :
    List (String × String) :=
  ((rows.reverse).take limit).reverse

/-- A pause record. Modelled from the spec: §3/§4.1 — `pausedAt` timestamp
(milliseconds) and a reason string. -/
structure PauseRec where
  pausedAt : Nat
  reason : String
deriving DecidableEq, Repr

/-- The store state seen by the webhook handler: history map (as in
memoryDb.js), plus the pause table and bot-message-id set, the latter two
modelled from the spec (their implementation is absent from the snapshot). -/
structure Db where
  chats : List (String × List StoredMsg)
  pauses : List (String × PauseRec)
  botIds : List Int
deriving DecidableEq

def emptyDb : Db := ⟨[], [], []⟩

def findPause (ps : List (String × PauseRec)) (pid : String) : Option PauseRec :=
  findAssoc ps pid

def removePause : List (String × PauseRec) → String → List (String × PauseRec)
  | [], _ => []
  | e :: rest, pid =>
    if e.1 = pid then removePause rest pid else e :: removePause rest pid

/-- Modelled from the spec: `pause(conversationId, reason)` — "upserts Pause
with `pausedAt = now`"; the upsert overwrites any prior record
(last-writer-wins, §3). -/
def pauseBot (db : Db) (pid : String) (reason : String) (now : Nat) : Db :=
  { db with pauses := (pid, ⟨now, reason⟩) :: removePause db.pauses pid }

def hourMs : Nat := 3600000

/-- Modelled from the spec: `isPaused(conversationId)` — "returns false if no
Pause record. If present, computes elapsed hours since `pausedAt`; if elapsed
> 48 hours, auto-resumes (deletes the record) and returns false; otherwise
returns true." Returns the answer together with the possibly-updated store. -/
def isBotPausedGo (db : Db) (pid : String) (now : Nat) :
    Option PauseRec → Bool × Db
  | none => (false, db)
  | some r =>
    if 48 * hourMs < now - r.pausedAt then
      (false, { db with pauses := removePause db.pauses pid })
    else (true, db)

def isBotPaused (db : Db) (pid : String) (now : Nat) : Bool × Db :=
  isBotPausedGo db pid now (findPause db.pauses pid)

/-- Modelled from the spec: `isBotMessage(id)` — membership test on the
BotMessageId set (§4.1). -/
def isBotMessage (db : Db) (id : Int) : Bool := db.botIds.contains id

/-- Modelled from the spec: `trackBotMessage(id)` — insert into the
BotMessageId set (§4.1; the volatile-deployment eviction cap of §3 is not
modelled, matching the §4.1 contract of a plain membership set). -/
def trackBotMessage (db : Db) (id : Int) : Db :=
  { db with botIds := id :: db.botIds }

/-- `saveMessage` on the handler's store delegates to the memoryDb logic. -/
def dbSaveMessage (db : Db) (pid role content : String) (ts : Nat) : Db :=
  { db with chats := memSave db.chats pid role content ts }

theorem findPause_removePause (ps : List (String × PauseRec)) (pid : String) :
    findPause (removePause ps pid) pid = none := by
  induction ps with
  | nil => rfl
  | cons e rest ih =>
    by_cases h : e.1 = pid
    · simpa [removePause, h] using ih
    · simpa [removePause, findPause, findAssoc, h] using ih

theorem findAssoc_append_absent {β : Type} :
    ∀ (m : List (String × β)) (pid : String) (x : β),
      findAssoc m pid = none → findAssoc (m ++ [(pid, x)]) pid = some x := by
  intro m
  induction m with
  | nil => intro pid x _; simp [findAssoc]
  | cons e rest ih =>
    intro pid x h
    cases e with
    | mk k v =>
      simp only [findAssoc] at h
      by_cases hk : k = pid
      · simp [hk] at h
      · simp only [List.cons_append, findAssoc, hk, if_false]
        exact ih pid x (by simpa [hk] using h)

theorem findAssoc_memSetAppend :
    ∀ (m : List (String × List StoredMsg)) (pid : String) (v : List StoredMsg)
      (msg : StoredMsg), findAssoc m pid = some v →
      findAssoc (memSetAppend m pid msg) pid = some (v ++ [msg]) := by
  intro m
  induction m with
  | nil => intro pid v msg h; cases h
  | cons e rest ih =>
    intro pid v msg h
    cases e with
    | mk k w =>
      by_cases hk : k = pid
      · subst hk
        simp only [findAssoc, if_pos rfl] at h
        cases h
        simp [memSetAppend, findAssoc]
      · simp only [findAssoc, hk, if_false] at h
        simp only [memSetAppend, hk, if_false]
        simp only [findAssoc, hk, if_false]
        exact ih pid v msg h

/-- The effect of one `saveMessage` on the saved conversation: the entry
exists afterwards and equals the old entry (empty when absent) with the new
message appended. -/
theorem findAssoc_memSave (m : List (String × List StoredMsg))
    (pid role content : String) (ts : Nat) :
    findAssoc (memSave m pid role content ts) pid =
      some ((findAssoc m pid).getD [] ++ [⟨role, content, ts⟩]) := by
  unfold memSave
  cases hm : findAssoc m pid with
  | none => simpa [hm] using findAssoc_append_absent m pid [⟨role, content, ts⟩] hm
  | some v =>
    have h2 := findAssoc_memSetAppend m pid v ⟨role, content, ts⟩ hm
    simpa [hm] using h2

/-! ### The webhook POST handler (part_004, lines 24-167)

One inbound Callback-API event. External collaborators (VK user profile,
OpenAI reply/summary/contact-preference) are oracle values; exceptions
raised by awaited calls are oracle flags, and a raised exception transfers
control to the handler's single outer `catch`, which only logs — modelled as
an abort that freezes the store and the effect trace at that point. -/

/-- An inbound VK Callback-API event, as destructured by the handler. -/
inductive VkEvent
  | confirmation
  | messageReply (msgId : Int) (peerId : Int)
  | messageNew (msgId : Int) (peerId : Int) (fromId : Int) (text : String)
  | other
deriving DecidableEq

/-- Oracle for the handler's external collaborators and failure points. -/
structure Oracle where
  firstName : String
  lastName : String
  getUserInfoThrows : Bool
  aiThrows : Bool
  aiReply : String
  summary : String
  contactPref : String
  saveUserThrows : Bool
  saveAssistantThrows : Bool
  sendThrows : Bool
  sendMsgId : Option Int
  now : Nat
deriving DecidableEq

/-- Payload of `telegramService.sendLeadNotification` as assembled in step 11
of the handler. -/
structure LeadData where
  firstName : String
  lastName : String
  fromId : String
  peerId : String
  phone : String
  contactPreference : String
  summary : String
deriving DecidableEq

/-- Payload of `telegramService.sendManagerRequestNotification` (step 12). -/
structure ManagerReq where
  firstName : String
  lastName : String
  fromId : String
  peerId : String
  summary : String
deriving DecidableEq

/-- Observable effects of processing one webhook event. `dispatched` records
the texts passed to `vkService.sendMessage`; `delivered` the texts actually
handed to the VK API (after `cleanMarkdown`), with their peer. -/
structure Trace where
  pausedWith : Option (String × String)
  profileFetched : Bool
  typingSet : Bool
  assistantInvoked : Bool
  dispatched : List String
  delivered : List (Int × String)
  leadCall : Option LeadData
  managerCall : Option ManagerReq
deriving DecidableEq

def emptyTrace : Trace := ⟨none, false, false, false, [], [], none, none⟩

/-- The fixed empty-text prompt of step 3. -/
def emptyTextPrompt : String := "Отправьте пожалуйста ваше сообщение текстом 😊"

/-- The webhook POST handler. `groupId` is `parseInt(config.vk.groupId)`.
Returns the store after the event and the effect trace. -/
def handleEvent (groupId : Int) (db : Db) (o : Oracle) : VkEvent → Db × Trace
  | .confirmation => (db, emptyTrace)
  | .other => (db, emptyTrace)
  | .messageReply mid pid =>
    if isBotMessage db mid then (db, emptyTrace)
    else
      (pauseBot db (toString pid) "manager_reply" o.now,
       { emptyTrace with pausedWith := some (toString pid, "manager_reply") })
  | .messageNew mid pid fid text =>
    if fid = -groupId ∨ fid < 0 then
      if isBotMessage db mid then (db, emptyTrace)
      else
        (pauseBot db (toString pid) "manager" o.now,
         { emptyTrace with pausedWith := some (toString pid, "manager") })
    else
      let pr := isBotPaused db (toString pid) o.now
      if pr.1 then (pr.2, emptyTrace)
      else
        let db1 := pr.2
        if jsTrim text = "" then
          (db1, { emptyTrace with
            dispatched := [emptyTextPrompt],
            delivered :=
              if o.sendThrows then [] else [(pid, cleanMarkdown emptyTextPrompt)] })
        else
          let t1 := { emptyTrace with profileFetched := true }
          if o.getUserInfoThrows then (db1, t1)
          else
            let t2 := { t1 with typingSet := true }
            let t3 := { t2 with assistantInvoked := true }
            if o.aiThrows then (db1, t3)
            else
              let clean := cleanReply o.aiReply
              let hasMR := containsMarker o.aiReply
              if o.saveUserThrows then (db1, t3)
              else
                let db2 := dbSaveMessage db1 (toString pid) "user" text o.now
                if o.saveAssistantThrows then (db2, t3)
                else
                  let db3 := dbSaveMessage db2 (toString pid) "assistant" clean o.now
                  let t4 := { t3 with dispatched := [clean] }
                  if o.sendThrows then (db3, t4)
                  else
                    let t5 := { t4 with delivered := [(pid, cleanMarkdown clean)] }
                    let db4 :=
                      match o.sendMsgId with
                      | some i => trackBotMessage db3 i
                      | none => db3
                    let ld : LeadData :=
                      ⟨o.firstName, o.lastName, toString fid, toString pid,
                        (phoneMatch text).getD "", o.contactPref, o.summary⟩
                    let mr : ManagerReq :=
                      ⟨o.firstName, o.lastName, toString fid, toString pid, o.summary⟩
                    let t6 :=
                      if phoneTest text then { t5 with leadCall := some ld } else t5
                    let t7 :=
                      if hasMR ∧ ¬ phoneTest text then { t6 with managerCall := some mr }
                      else t6
                    (db4, t7)

/-! ### Telegram live-notification collapse (part_000)

`TelegramService.sendLeadNotification` (lines 129-175) and
`sendManagerRequestNotification` (lines 180-244). Only the
`notificationMessages` bookkeeping and the send/edit choice are modelled;
message formatting and the retry wrapper (which merely repeats the same
attempt on transient errors) are irrelevant to the claims and omitted.
`editOk` tells whether `bot.editMessageText` succeeds; `newId` is the
`message_id` Telegram assigns if a fresh message is sent. -/

/-- Process-local `notificationMessages` map of `TelegramService`. -/
structure TgState where
  notificationMessages : List (String × Nat)
deriving DecidableEq

/-- Update the remembered notification id for a peer
(`this.notificationMessages.set(peerId, id)`). -/
def tgSet : List (String × Nat) → String → Nat → List (String × Nat)
  | [], pid, v => [(pid, v)]
  | e :: rest, pid, v =>
    if e.1 = pid then (e.1, v) :: rest else e :: tgSet rest pid v

/-- What one notification call did on the Telegram channel. -/
inductive TgEffect
  | edited (chatMsgId : Nat)
  | sentNew (chatMsgId : Nat)
deriving DecidableEq

/-- `TelegramService.sendLeadNotification`: with a remembered live
notification, try an in-place edit; on edit failure (or with no remembered
id) send a fresh message and remember its id. Returns `none` when the bot is
not configured (the guard at the top of the method). -/
def sendLeadNotification (botConfigured : Bool) (st : TgState) (peerId : String)
    (editOk : Bool) (newId : Nat) : TgState × Option TgEffect :=
  if botConfigured = false then (st, none)
  else
    match findAssoc st.notificationMessages peerId with
    | some mid =>
      if editOk then (st, some (.edited mid))
      else
        ({ notificationMessages := tgSet st.notificationMessages peerId newId },
         some (.sentNew newId))
    | none =>
      ({ notificationMessages := tgSet st.notificationMessages peerId newId },
       some (.sentNew newId))

/-- `TelegramService.sendManagerRequestNotification`: always sends a fresh
message and remembers its id — the method never consults the remembered id
nor attempts an edit. -/
def sendManagerRequestNotification (botConfigured : Bool) (st : TgState)
    (peerId : String) (newId : Nat) : TgState × Option TgEffect :=
  if botConfigured = false then (st, none)
  else
    ({ notificationMessages := tgSet st.notificationMessages peerId newId },
     some (.sentNew newId))

/-! ### Claim theorems -/

/-- C5 (amended): with a live notification already remembered for a
conversation id, a subsequent *lead* notification edits it in place when the
edit succeeds (and falls back to a fresh send, replacing the remembered id,
when the edit fails, or when nothing is remembered); a subsequent
*manager-request* notification, however, always sends a fresh message and
replaces the remembered id — it never edits. -/
theorem leadNotification_collapse_amended (st : TgState) (peerId : String)
    (mid newId : Nat) (editOk : Bool)
    (hmem : findAssoc st.notificationMessages peerId = some mid) :
    (editOk = true →
      sendLeadNotification true st peerId editOk newId = (st, some (.edited mid)))
  ∧ (editOk = false →
      sendLeadNotification true st peerId editOk newId =
        ({ notificationMessages := tgSet st.notificationMessages peerId newId },
         some (.sentNew newId)))
  ∧ (∀ st2 : TgState, findAssoc st2.notificationMessages peerId = none →
      sendLeadNotification true st2 peerId editOk newId =
        ({ notificationMessages := tgSet st2.notificationMessages peerId newId },
         some (.sentNew newId)))
  ∧ (sendManagerRequestNotification true st peerId newId =
      ({ notificationMessages := tgSet st.notificationMessages peerId newId },
       some (.sentNew newId))) := by
  refine ⟨?_, ?_, ?_, ?_⟩
  · intro he
    simp [sendLeadNotification, hmem, he]
  · intro he
    simp [sendLeadNotification, hmem, he]
  · intro st2 h2
    simp [sendLeadNotification, h2]
  · simp [sendManagerRequestNotification]

/-- C5 counterexample: a live notification (Telegram message 42) is
remembered for conversation "555", yet a manager-request trigger sends a
fresh notification message 99 instead of editing message 42 — the claimed
edit-in-place does not happen on this path even though an edit would have
succeeded. -/
theorem managerRequest_always_sends_new :
    sendManagerRequestNotification true ⟨[("555", 42)]⟩ "555" 99
      = (⟨[("555", 99)]⟩, some (.sentNew 99))
  ∧ (sendManagerRequestNotification true ⟨[("555", 42)]⟩ "555" 99).2
      ≠ some (.edited 42) := by
  refine ⟨by decide, by decide⟩

/-- C5 witness: concrete application — with message 42 remembered for "555",
a successful lead edit keeps the state and edits message 42, and a
manager-request call sends message 99. -/
theorem leadNotification_collapse_witness :
    (sendLeadNotification true ⟨[("555", 42)]⟩ "555" true 99
      = (⟨[("555", 42)]⟩, some (.edited 42)))
  ∧ (sendManagerRequestNotification true ⟨[("555", 42)]⟩ "555" 99
      = (⟨[("555", 99)]⟩, some (.sentNew 99))) := by
  have h := leadNotification_collapse_amended ⟨[("555", 42)]⟩ "555" 42 99 true
    (by decide)
  exact ⟨h.1 rfl, h.2.2.2⟩

/-- C7 (amended): after saving A, B, C in that order, `getHistory` with limit
2 returns exactly [B, C], on both backends and from any prior state; for
every limit ≥ 1 both backends return at most `limit` messages — the most
recent ones, oldest-first (the suffix of the stored sequence). The
restriction to limit ≥ 1 is forced: the volatile backend evaluates
`messages.slice(-0)` as `slice(0)` and returns the whole history. -/
theorem getHistory_recent_suffix (m : List (String × List StoredMsg))
    (rows : List (String × String)) (pid rA cA rB cB rC cC : String)
    (t1 t2 t3 : Nat) :
    (memGetChatHistory
        (memSave (memSave (memSave m pid rA cA t1) pid rB cB t2) pid rC cC t3)
        pid 2 = [(rB, cB), (rC, cC)])
  ∧ (pgGetChatHistory (rows ++ [(rA, cA), (rB, cB), (rC, cC)]) 2
        = [(rB, cB), (rC, cC)])
  ∧ (∀ limit, 1 ≤ limit → (memGetChatHistory m pid limit).length ≤ limit)
  ∧ (∀ limit msgs, 1 ≤ limit → findAssoc m pid = some msgs →
      memGetChatHistory m pid limit
        = (msgs.drop (msgs.length - limit)).map (fun ms => (ms.role, ms.content)))
  ∧ (∀ limit, pgGetChatHistory rows limit = rows.drop (rows.length - limit)) := by
  have hpg : ∀ (rs : List (String × String)) (limit : Nat),
      pgGetChatHistory rs limit = rs.drop (rs.length - limit) := by
    intro rs limit
    unfold pgGetChatHistory
    rw [List.take_reverse, List.reverse_reverse]
  refine ⟨?_, ?_, ?_, ?_, hpg rows⟩
  · have h1 := findAssoc_memSave m pid rA cA t1
    have h2 := findAssoc_memSave (memSave m pid rA cA t1) pid rB cB t2
    have h3 := findAssoc_memSave
      (memSave (memSave m pid rA cA t1) pid rB cB t2) pid rC cC t3
    rw [h1] at h2
    rw [h2] at h3
    simp only [Option.getD_some] at h2 h3
    simp only [memGetChatHistory, h3]
    have hln : (((((findAssoc m pid).getD [] ++ [⟨rA, cA, t1⟩]) ++ [⟨rB, cB, t2⟩])
        ++ [⟨rC, cC, t3⟩]) : List StoredMsg).length
        = ((findAssoc m pid).getD []).length + 3 := by
      simp
    simp only [sliceLast]
    rw [if_neg (by omega : ¬ (2 : Nat) = 0), hln]
    have hre : ((((findAssoc m pid).getD [] ++ [⟨rA, cA, t1⟩]) ++ [⟨rB, cB, t2⟩])
        ++ [⟨rC, cC, t3⟩] : List StoredMsg)
        = (findAssoc m pid).getD [] ++ [⟨rA, cA, t1⟩, ⟨rB, cB, t2⟩, ⟨rC, cC, t3⟩] := by
      simp
    rw [hre]
    have harith : ((findAssoc m pid).getD [] : List StoredMsg).length + 3 - 2
        = ((findAssoc m pid).getD [] : List StoredMsg).length + 1 := by omega
    rw [harith, List.drop_append]
    simp
  · rw [hpg]
    have : (rows ++ [(rA, cA), (rB, cB), (rC, cC)]).length - 2 = rows.length + 1 := by
      simp
    rw [this, List.drop_append]
    simp
  · intro limit hlim
    cases hm : findAssoc m pid with
    | none => simp [memGetChatHistory, hm]
    | some msgs =>
      simp only [memGetChatHistory, hm, sliceLast]
      rw [if_neg (by omega : ¬ limit = 0)]
      rw [List.length_map, List.length_drop]
      omega
  · intro limit msgs hlim hm
    simp only [memGetChatHistory, hm, sliceLast]
    rw [if_neg (by omega : ¬ limit = 0)]

/-- C7 counterexample: the claim's "getHistory returns at most `limit`
messages" fails at limit 0 on the volatile backend — with one stored
message, `messages.slice(-0)` is `slice(0)` and the whole history (one
message, more than zero) is returned. -/
theorem getHistory_limit_zero_returns_all :
    memGetChatHistory (memSave [] "c" "user" "A" 0) "c" 0 = [("user", "A")]
  ∧ ¬ ((memGetChatHistory (memSave [] "c" "user" "A" 0) "c" 0).length ≤ 0) := by
  constructor
  · decide
  · decide

/-- C7 witness: the A, B, C round-trip at a concrete conversation, and the
bound at limit 5. -/
theorem getHistory_recent_suffix_witness :
    memGetChatHistory
      (memSave (memSave (memSave [] "c" "user" "A" 0) "c" "assistant" "B" 1)
        "c" "user" "C" 2) "c" 2 = [("assistant", "B"), ("user", "C")]
  ∧ pgGetChatHistory [("user", "A"), ("assistant", "B"), ("user", "C")] 2
      = [("assistant", "B"), ("user", "C")]
  ∧ (memGetChatHistory [("c", [⟨"user", "A", 0⟩])] "c" 5).length ≤ 5 := by
  refine ⟨?_, ?_, ?_⟩
  · exact (getHistory_recent_suffix [] [] "c" "user" "A" "assistant" "B"
      "user" "C" 0 1 2).1
  · exact (getHistory_recent_suffix [] [] "c" "user" "A" "assistant" "B"
      "user" "C" 0 1 2).2.1
  · exact (getHistory_recent_suffix [("c", [⟨"user", "A", 0⟩])] [] "c"
      "u" "a" "u" "b" "u" "d" 0 1 2).2.2.1 5 (by omega)

/-- C8: `isPaused` — no Pause record gives false; a record more than 48 hours
old gives false AND deletes the record, so a later check (at any time)
without re-pausing is also false; a record at most 48 hours old gives true
(store untouched). -/
theorem isPaused_auto_expiry (db : Db) (pid : String) (now now2 : Nat) :
    (findPause db.pauses pid = none → isBotPaused db pid now = (false, db))
  ∧ (∀ r, findPause db.pauses pid = some r → 48 * hourMs < now - r.pausedAt →
      (isBotPaused db pid now).1 = false
      ∧ findPause (isBotPaused db pid now).2.pauses pid = none
      ∧ (isBotPaused (isBotPaused db pid now).2 pid now2).1 = false)
  ∧ (∀ r, findPause db.pauses pid = some r → now - r.pausedAt ≤ 48 * hourMs →
      isBotPaused db pid now = (true, db)) := by
  refine ⟨?_, ?_, ?_⟩
  · intro h
    simp [isBotPaused, isBotPausedGo, h]
  · intro r hr hexp
    have hdel : (isBotPaused db pid now).2.pauses = removePause db.pauses pid := by
      simp [isBotPaused, isBotPausedGo, hr, hexp]
    have hnone : findPause (isBotPaused db pid now).2.pauses pid = none := by
      rw [hdel]
      exact findPause_removePause db.pauses pid
    refine ⟨by simp [isBotPaused, isBotPausedGo, hr, hexp], hnone, ?_⟩
    generalize hX : (isBotPaused db pid now).2 = d2 at hnone ⊢
    simp [isBotPaused, isBotPausedGo, hnone]
  · intro r hr hfresh
    simp [isBotPaused, isBotPausedGo, hr, Nat.not_lt.mpr hfresh]

/-- C8 witness: conversation "555" paused at time 0 — checked 49 hours later
the pause has expired (false, record gone, still false on a re-check);
checked 10 hours later it holds; an unknown conversation is not paused. -/
theorem isPaused_auto_expiry_witness :
    (isBotPaused ⟨[], [("555", ⟨0, "manager"⟩)], []⟩ "555" (49 * hourMs)).1 = false
  ∧ findPause (isBotPaused ⟨[], [("555", ⟨0, "manager"⟩)], []⟩ "555"
      (49 * hourMs)).2.pauses "555" = none
  ∧ (isBotPaused (isBotPaused ⟨[], [("555", ⟨0, "manager"⟩)], []⟩ "555"
      (49 * hourMs)).2 "555" (50 * hourMs)).1 = false
  ∧ isBotPaused ⟨[], [("555", ⟨0, "manager"⟩)], []⟩ "555" (10 * hourMs)
      = (true, ⟨[], [("555", ⟨0, "manager"⟩)], []⟩)
  ∧ isBotPaused ⟨[], [], []⟩ "777" 5
      = (false, ⟨[], [], []⟩) := by
  have h := isPaused_auto_expiry ⟨[], [("555", ⟨0, "manager"⟩)], []⟩ "555"
    (49 * hourMs) (50 * hourMs)
  have hexp := h.2.1 ⟨0, "manager"⟩ (by decide) (by decide)
  have hfresh := (isPaused_auto_expiry ⟨[], [("555", ⟨0, "manager"⟩)], []⟩ "555"
    (10 * hourMs) 0).2.2 ⟨0, "manager"⟩ (by decide) (by decide)
  have hnone := (isPaused_auto_expiry ⟨[], [], []⟩ "777" 5 0).1 (by decide)
  exact ⟨hexp.1, hexp.2.1, hexp.2.2, hfresh, hnone⟩

theorem isBotPaused_true_frozen (db : Db) (pid : String) (now : Nat)
    (h : (isBotPaused db pid now).1 = true) : (isBotPaused db pid now).2 = db := by
  unfold isBotPaused at h ⊢
  cases hf : findPause db.pauses pid with
  | none =>
    rw [hf] at h
    simp [isBotPausedGo] at h
  | some r =>
    rw [hf] at h
    by_cases hc : 48 * hourMs < now - r.pausedAt
    · simp [isBotPausedGo, hc] at h
    · simp [isBotPausedGo, hc]

theorem isBotPaused_chats (db : Db) (pid : String) (now : Nat) :
    (isBotPaused db pid now).2.chats = db.chats := by
  unfold isBotPaused
  cases hf : findPause db.pauses pid with
  | none => rfl
  | some r =>
    by_cases hc : 48 * hourMs < now - r.pausedAt
    · simp [isBotPausedGo, hc]
    · simp [isBotPausedGo, hc]

/-- C1: for operator-originated traffic — a `message_reply` event, or a
`message_new` event whose `from_id` is `-groupId` or negative — the handler
pauses the conversation exactly when the event's message id is not in the
bot-message set (which, in this insert-only model of `trackBotMessage`,
holds exactly when the id was never passed to `trackBotMessage`); the
recorded reason is `"manager_reply"` for `message_reply` and `"manager"` for
`message_new`, and no reply is dispatched and no assistant call made either
way; a tracked (bot-echo) id leaves the store untouched. -/
theorem operator_event_pause_iff_untracked (groupId : Int) (db : Db)
    (o : Oracle) (mid pid fid : Int) (text : String) :
    ((handleEvent groupId db o (.messageReply mid pid)).2.pausedWith
        = (if isBotMessage db mid then none
           else some (toString pid, "manager_reply")))
  ∧ (handleEvent groupId db o (.messageReply mid pid)).2.dispatched = []
  ∧ (handleEvent groupId db o (.messageReply mid pid)).2.assistantInvoked = false
  ∧ (isBotMessage db mid = false →
      findPause (handleEvent groupId db o (.messageReply mid pid)).1.pauses
        (toString pid) = some ⟨o.now, "manager_reply"⟩)
  ∧ (isBotMessage db mid = true →
      handleEvent groupId db o (.messageReply mid pid) = (db, emptyTrace))
  ∧ ((fid = -groupId ∨ fid < 0) →
      ((handleEvent groupId db o (.messageNew mid pid fid text)).2.pausedWith
          = (if isBotMessage db mid then none
             else some (toString pid, "manager")))
      ∧ (handleEvent groupId db o (.messageNew mid pid fid text)).2.dispatched = []
      ∧ (handleEvent groupId db o
          (.messageNew mid pid fid text)).2.assistantInvoked = false
      ∧ (isBotMessage db mid = false →
          findPause (handleEvent groupId db o
            (.messageNew mid pid fid text)).1.pauses
            (toString pid) = some ⟨o.now, "manager"⟩)
      ∧ (isBotMessage db mid = true →
          handleEvent groupId db o (.messageNew mid pid fid text)
            = (db, emptyTrace))) := by
  have hnew : ∀ _ : fid = -groupId ∨ fid < 0,
      handleEvent groupId db o (.messageNew mid pid fid text)
      = (if isBotMessage db mid then (db, emptyTrace)
         else (pauseBot db (toString pid) "manager" o.now,
               { emptyTrace with pausedWith := some (toString pid, "manager") })) := by
    intro hop
    simp only [handleEvent]
    rw [if_pos hop]
  refine ⟨?_, ?_, ?_, ?_, ?_, fun hop => ?_⟩
  · cases hb : isBotMessage db mid <;> simp [handleEvent, hb, emptyTrace]
  · cases hb : isBotMessage db mid <;> simp [handleEvent, hb, emptyTrace]
  · cases hb : isBotMessage db mid <;> simp [handleEvent, hb, emptyTrace]
  · intro hb
    simp [handleEvent, hb, pauseBot, findPause, findAssoc]
  · intro hb
    simp [handleEvent, hb]
  · rw [hnew hop]
    refine ⟨?_, ?_, ?_, ?_, ?_⟩
    · cases hb : isBotMessage db mid <;> simp [hb, emptyTrace]
    · cases hb : isBotMessage db mid <;> simp [hb, emptyTrace]
    · cases hb : isBotMessage db mid <;> simp [hb, emptyTrace]
    · intro hb
      simp [hb, pauseBot, findPause, findAssoc]
    · intro hb
      simp [hb]

/-- C1 witness: concrete operator events — an untracked `message_reply`
pauses "555" with reason `"manager_reply"`; an untracked `message_new` from
`from_id = -100` (the negative group id) pauses with reason `"manager"`; a
tracked id (7) triggers nothing. -/
theorem operator_event_pause_witness :
    ((handleEvent 100 emptyDb ⟨"A", "B", false, false, "r", "s", "c",
        false, false, false, some 7, 123⟩ (.messageReply 1 555)).2.pausedWith
      = (if isBotMessage emptyDb 1 then none else some (toString (555 : Int), "manager_reply")))
  ∧ ((handleEvent 100 emptyDb ⟨"A", "B", false, false, "r", "s", "c",
        false, false, false, some 7, 123⟩
        (.messageNew 1 555 (-100) "x")).2.pausedWith
      = (if isBotMessage emptyDb 1 then none else some (toString (555 : Int), "manager")))
  ∧ handleEvent 100 ⟨[], [], [7]⟩ ⟨"A", "B", false, false, "r", "s", "c",
        false, false, false, some 7, 123⟩ (.messageReply 7 555)
      = (⟨[], [], [7]⟩, emptyTrace) := by
  refine ⟨?_, ?_, ?_⟩
  · exact (operator_event_pause_iff_untracked 100 emptyDb
      ⟨"A", "B", false, false, "r", "s", "c", false, false, false, some 7, 123⟩
      1 555 (-100) "x").1
  · exact ((operator_event_pause_iff_untracked 100 emptyDb
      ⟨"A", "B", false, false, "r", "s", "c", false, false, false, some 7, 123⟩
      1 555 (-100) "x").2.2.2.2.2 (Or.inl rfl)).1
  · exact (operator_event_pause_iff_untracked 100 ⟨[], [], [7]⟩
      ⟨"A", "B", false, false, "r", "s", "c", false, false, false, some 7, 123⟩
      7 555 (-100) "x").2.2.2.2.1 (by decide)

/-- C2: a `message_new` event from a customer (not operator-classified) for a
conversation whose pause gate reports paused is dropped whole: the store is
unchanged (no history write) and the trace is empty — no profile fetch, no
typing indicator, no assistant call, nothing dispatched or delivered, no
notifications. -/
theorem paused_conversation_is_silent (groupId : Int) (db : Db) (o : Oracle)
    (mid pid fid : Int) (text : String)
    (hop : ¬ (fid = -groupId ∨ fid < 0))
    (hp : (isBotPaused db (toString pid) o.now).1 = true) :
    handleEvent groupId db o (.messageNew mid pid fid text) = (db, emptyTrace) := by
  have h2 := isBotPaused_true_frozen db (toString pid) o.now hp
  simp only [handleEvent]
  rw [if_neg hop]
  simp [hp, h2]

/-- C2 witness: conversation "555" paused one hour ago; a customer message
(from_id 777) produces no effect at all. -/
theorem paused_conversation_is_silent_witness :
    handleEvent 100 ⟨[], [("555", ⟨0, "manager"⟩)], []⟩
      ⟨"A", "B", false, false, "reply", "s", "c", false, false, false,
        some 7, hourMs⟩ (.messageNew 1 555 777 "Хочу тур")
    = (⟨[], [("555", ⟨0, "manager"⟩)], []⟩, emptyTrace) :=
  paused_conversation_is_silent 100 ⟨[], [("555", ⟨0, "manager"⟩)], []⟩
    ⟨"A", "B", false, false, "reply", "s", "c", false, false, false,
      some 7, hourMs⟩ 1 555 777 "Хочу тур" (by decide) (by decide)

/-- Concrete oracle used by witnesses and counterexamples: a manager-request
marker in the reply, well-behaved externals, send id 42. -/
def oWit : Oracle :=
  ⟨"Анна", "Иванова", false, false, "Хорошо! [MANAGER_REQUEST]", "sum", "vk",
   false, false, false, some 42, 1000⟩

/-- C3: on a fully processed customer message whose text matches the phone
pattern, the lead-notification path is invoked with the extracted phone
(`match[0]`), the summary and the contact preference — and the
manager-request path is not invoked, whatever the assistant's reply (in
particular even when it carries the human-request marker). -/
theorem phone_precedence_over_marker (groupId : Int) (db : Db) (o : Oracle)
    (mid pid fid : Int) (text : String)
    (hop : ¬ (fid = -groupId ∨ fid < 0))
    (hp : (isBotPaused db (toString pid) o.now).1 = false)
    (ht : ¬ jsTrim text = "")
    (hu : o.getUserInfoThrows = false)
    (ha : o.aiThrows = false)
    (hs1 : o.saveUserThrows = false)
    (hs2 : o.saveAssistantThrows = false)
    (hsend : o.sendThrows = false)
    (hphone : phoneTest text = true) :
    (handleEvent groupId db o (.messageNew mid pid fid text)).2.leadCall
      = some ⟨o.firstName, o.lastName, toString fid, toString pid,
          (phoneMatch text).getD "", o.contactPref, o.summary⟩
  ∧ (handleEvent groupId db o (.messageNew mid pid fid text)).2.managerCall
      = none := by
  simp only [handleEvent]
  rw [if_neg hop]
  cases hsid : o.sendMsgId <;>
    simp [hp, ht, hu, ha, hs1, hs2, hsend, hphone, hsid, emptyTrace]

/-- C3 witness: a message carrying `+79991234567` while the assistant's reply
carries the marker — the lead call fires with the phone, the manager-request
call does not. -/
theorem phone_precedence_over_marker_witness :
    (handleEvent 100 emptyDb oWit
        (.messageNew 1 555 777 "мой номер +79991234567")).2.leadCall
      = some ⟨"Анна", "Иванова", "777", "555", "+79991234567", "vk", "sum"⟩
  ∧ (handleEvent 100 emptyDb oWit
        (.messageNew 1 555 777 "мой номер +79991234567")).2.managerCall
      = none := by
  have h := phone_precedence_over_marker 100 emptyDb oWit 1 555 777
    "мой номер +79991234567" (by decide) (by decide) (by decide)
    rfl rfl rfl rfl rfl (by decide)
  refine ⟨?_, h.2⟩
  rw [h.1]
  decide

/-- C10: the `(\+7|8)?` prefix is optional — the bare ten-digit text
`"123 456 78 90"` (no `+7`, no `8` prefix) matches the phone pattern, and a
processed customer message with exactly that text triggers the
lead-notification path with it as the extracted phone. -/
theorem bare_ten_digits_trigger_lead :
    phoneTest "123 456 78 90" = true
  ∧ phoneMatch "123 456 78 90" = some "123 456 78 90"
  ∧ (handleEvent 100 emptyDb oWit
        (.messageNew 1 555 777 "123 456 78 90")).2.leadCall
      = some ⟨"Анна", "Иванова", "777", "555", "123 456 78 90", "vk", "sum"⟩ := by
  refine ⟨by decide, by decide, by decide⟩

/-- Oracle whose assistant reply splices a new marker out of fragments once
the inner occurrence is removed. -/
def oSplice : Oracle :=
  ⟨"Анна", "Иванова", false, false, "[MANAGER[MANAGER_REQUEST]_REQUEST]",
   "sum", "vk", false, false, false, some 42, 1000⟩

/-- C4 counterexample: for the assistant reply
`"[MANAGER[MANAGER_REQUEST]_REQUEST]"` the single replacement pass removes
its only marker occurrence but splices the surrounding fragments into a new
occurrence, so the customer-facing text — dispatched, stored, and delivered
to VK — is exactly the literal marker: it does reach the customer. -/
theorem marker_splice_reaches_customer :
    containsMarker (cleanReply "[MANAGER[MANAGER_REQUEST]_REQUEST]") = true
  ∧ (handleEvent 100 emptyDb oSplice (.messageNew 1 555 777 "привет")).2.dispatched
      = ["[MANAGER_REQUEST]"]
  ∧ (handleEvent 100 emptyDb oSplice (.messageNew 1 555 777 "привет")).2.delivered
      = [(555, "[MANAGER_REQUEST]")] := by
  refine ⟨by decide, by decide, by decide⟩

/-- C4 (amended): on a fully processed customer message, the text dispatched
to the customer and appended to history as the assistant turn is the reply
with the marker matches of ONE left-to-right replacement pass removed
(together with surrounding whitespace) and the result trimmed — and the
marker is guaranteed absent from that text only when the single pass leaves
no marker occurrence (removal can splice fragments into a new occurrence,
which is then shown to the customer). -/
theorem marker_stripping_single_pass (groupId : Int) (db : Db) (o : Oracle)
    (mid pid fid : Int) (text : String)
    (hop : ¬ (fid = -groupId ∨ fid < 0))
    (hp : (isBotPaused db (toString pid) o.now).1 = false)
    (ht : ¬ jsTrim text = "")
    (hu : o.getUserInfoThrows = false)
    (ha : o.aiThrows = false)
    (hs1 : o.saveUserThrows = false)
    (hs2 : o.saveAssistantThrows = false)
    (hsend : o.sendThrows = false) :
    (handleEvent groupId db o (.messageNew mid pid fid text)).2.dispatched
      = [cleanReply o.aiReply]
  ∧ (handleEvent groupId db o (.messageNew mid pid fid text)).2.delivered
      = [(pid, cleanMarkdown (cleanReply o.aiReply))]
  ∧ findAssoc (handleEvent groupId db o (.messageNew mid pid fid text)).1.chats
        (toString pid)
      = some ((findAssoc db.chats (toString pid)).getD []
          ++ [⟨"user", text, o.now⟩,
              ⟨"assistant", cleanReply o.aiReply, o.now⟩])
  ∧ (containsSub markerChars (replaceMarkerG o.aiReply.data) = false →
      containsMarker (cleanReply o.aiReply) = false) := by
  refine ⟨?_, ?_, ?_, ?_⟩
  · simp only [handleEvent]
    rw [if_neg hop]
    cases hsid : o.sendMsgId <;> cases hph : phoneTest text <;>
      cases hmr : containsMarker o.aiReply <;>
      simp [hp, ht, hu, ha, hs1, hs2, hsend, hsid, hph, hmr, emptyTrace]
  · simp only [handleEvent]
    rw [if_neg hop]
    cases hsid : o.sendMsgId <;> cases hph : phoneTest text <;>
      cases hmr : containsMarker o.aiReply <;>
      simp [hp, ht, hu, ha, hs1, hs2, hsend, hsid, hph, hmr, emptyTrace]
  · simp only [handleEvent]
    rw [if_neg hop]
    cases hsid : o.sendMsgId <;> cases hph : phoneTest text <;>
      cases hmr : containsMarker o.aiReply <;>
      simp [hp, ht, hu, ha, hs1, hs2, hsend, hsid, hph, hmr, emptyTrace,
        dbSaveMessage, trackBotMessage, findAssoc_memSave, isBotPaused_chats]
  · intro hm
    by_contra hcc
    have h1 : containsMarker (cleanReply o.aiReply) = true := by
      cases hb : containsMarker (cleanReply o.aiReply) with
      | false => exact absurd hb hcc
      | true => rfl
    have h2 : containsSub markerChars (trimWsL (replaceMarkerG o.aiReply.data))
        = true := h1
    have h3 := containsSub_of_trim markerChars (replaceMarkerG o.aiReply.data) h2
    rw [hm] at h3
    cases h3

/-- C4 witness: a reply with one well-separated marker — the dispatched and
stored text is the trimmed stripped reply `"Хорошо!"`, and it contains no
marker. -/
theorem marker_stripping_single_pass_witness :
    (handleEvent 100 emptyDb oWit (.messageNew 1 555 777 "привет")).2.dispatched
      = [cleanReply "Хорошо! [MANAGER_REQUEST]"]
  ∧ findAssoc (handleEvent 100 emptyDb oWit
        (.messageNew 1 555 777 "привет")).1.chats "555"
      = some [⟨"user", "привет", 1000⟩,
              ⟨"assistant", cleanReply "Хорошо! [MANAGER_REQUEST]", 1000⟩]
  ∧ containsMarker (cleanReply "Хорошо! [MANAGER_REQUEST]") = false := by
  have h := marker_stripping_single_pass 100 emptyDb oWit 1 555 777 "привет"
    (by decide) (by decide) (by decide) rfl rfl rfl rfl rfl
  refine ⟨h.1, ?_, h.2.2.2 (by decide)⟩
  have h3 := h.2.2.1
  simpa using h3

/-- C6 counterexample: with `saveMessage` throwing on the inbound message,
the assistant had already produced a reply (the pipeline reached step 7),
yet nothing is dispatched or delivered to the customer — reply delivery is
NOT preserved across a save failure: the exception reaches the handler's
outer catch and aborts the event before step 10. -/
theorem save_failure_no_send :
    (handleEvent 100 emptyDb ⟨"Анна", "Иванова", false, false, "Здравствуйте!",
        "sum", "vk", true, false, false, some 42, 1000⟩
        (.messageNew 1 555 777 "привет")).2.assistantInvoked = true
  ∧ (handleEvent 100 emptyDb ⟨"Анна", "Иванова", false, false, "Здравствуйте!",
        "sum", "vk", true, false, false, some 42, 1000⟩
        (.messageNew 1 555 777 "привет")).2.dispatched = []
  ∧ (handleEvent 100 emptyDb ⟨"Анна", "Иванова", false, false, "Здравствуйте!",
        "sum", "vk", true, false, false, some 42, 1000⟩
        (.messageNew 1 555 777 "привет")).2.delivered = [] := by
  refine ⟨by decide, by decide, by decide⟩

/-- C6 (amended): a failure of either `saveMessage` call (inbound message or
cleaned reply) aborts the event at the handler's outer catch: no text is
dispatched or delivered to the customer and neither notification path runs —
the reply is lost, not preserved. -/
theorem save_failure_aborts_reply (groupId : Int) (db : Db) (o : Oracle)
    (mid pid fid : Int) (text : String)
    (hop : ¬ (fid = -groupId ∨ fid < 0))
    (hp : (isBotPaused db (toString pid) o.now).1 = false)
    (ht : ¬ jsTrim text = "")
    (hu : o.getUserInfoThrows = false)
    (ha : o.aiThrows = false)
    (hfail : o.saveUserThrows = true ∨ o.saveAssistantThrows = true) :
    (handleEvent groupId db o (.messageNew mid pid fid text)).2.dispatched = []
  ∧ (handleEvent groupId db o (.messageNew mid pid fid text)).2.delivered = []
  ∧ (handleEvent groupId db o (.messageNew mid pid fid text)).2.leadCall = none
  ∧ (handleEvent groupId db o
      (.messageNew mid pid fid text)).2.managerCall = none := by
  simp only [handleEvent]
  rw [if_neg hop]
  rcases hfail with hf | hf
  · simp [hp, ht, hu, ha, hf, emptyTrace]
  · cases hs1 : o.saveUserThrows with
    | true => simp [hp, ht, hu, ha, hs1, emptyTrace]
    | false => simp [hp, ht, hu, ha, hs1, hf, emptyTrace]

/-- C6 witness: concrete run in which the second save (the assistant turn)
throws — nothing reaches the customer. -/
theorem save_failure_aborts_reply_witness :
    (handleEvent 100 emptyDb ⟨"Анна", "Иванова", false, false, "Здравствуйте!",
        "sum", "vk", false, true, false, some 42, 1000⟩
        (.messageNew 1 555 777 "привет")).2.dispatched = []
  ∧ (handleEvent 100 emptyDb ⟨"Анна", "Иванова", false, false, "Здравствуйте!",
        "sum", "vk", false, true, false, some 42, 1000⟩
        (.messageNew 1 555 777 "привет")).2.delivered = []
  ∧ (handleEvent 100 emptyDb ⟨"Анна", "Иванова", false, false, "Здравствуйте!",
        "sum", "vk", false, true, false, some 42, 1000⟩
        (.messageNew 1 555 777 "привет")).2.leadCall = none
  ∧ (handleEvent 100 emptyDb ⟨"Анна", "Иванова", false, false, "Здравствуйте!",
        "sum", "vk", false, true, false, some 42, 1000⟩
        (.messageNew 1 555 777 "привет")).2.managerCall = none :=
  save_failure_aborts_reply 100 emptyDb
    ⟨"Анна", "Иванова", false, false, "Здравствуйте!", "sum", "vk",
      false, true, false, some 42, 1000⟩
    1 555 777 "привет" (by decide) (by decide) (by decide) rfl rfl
    (Or.inr rfl)

/-- C9: for every webhook event, when the VK send does not fail, each text
actually handed to the VK API is `cleanMarkdown` of the corresponding text
the coordinator dispatched — markdown delimiters are stripped at the
`VKService.sendMessage` boundary, so the wire text is `cleanMarkdown` of the
cleaned reply, not the cleaned reply itself (witnessed by the bold/italic
example, where the two differ). -/
theorem delivered_is_cleanMarkdown_of_dispatched (groupId : Int) (db : Db)
    (o : Oracle) (ev : VkEvent) (hsend : o.sendThrows = false) :
    (handleEvent groupId db o ev).2.delivered.map Prod.snd
      = (handleEvent groupId db o ev).2.dispatched.map cleanMarkdown
  ∧ cleanMarkdown "**Привет**, _друг_!" = "Привет, друг!"
  ∧ cleanMarkdown "**Привет**, _друг_!" ≠ "**Привет**, _друг_!" := by
  refine ⟨?_, by decide, by decide⟩
  cases ev with
  | confirmation => simp [handleEvent, emptyTrace]
  | other => simp [handleEvent, emptyTrace]
  | messageReply mid pid =>
    cases hb : isBotMessage db mid <;> simp [handleEvent, hb, emptyTrace]
  | messageNew mid pid fid text =>
    by_cases hopc : fid = -groupId ∨ fid < 0
    · simp only [handleEvent]
      rw [if_pos hopc]
      cases hb : isBotMessage db mid <;> simp [hb, emptyTrace]
    · simp only [handleEvent]
      rw [if_neg hopc]
      cases hpp : (isBotPaused db (toString pid) o.now).1 with
      | true => simp [emptyTrace]
      | false =>
        by_cases hte : jsTrim text = ""
        · simp [hte, hsend, emptyTrace]
        · cases hu2 : o.getUserInfoThrows with
          | true => simp [hte, emptyTrace]
          | false =>
            cases ha2 : o.aiThrows with
            | true => simp [hte, emptyTrace]
            | false =>
              cases hsu : o.saveUserThrows with
              | true => simp [hte, emptyTrace]
              | false =>
                cases hsa : o.saveAssistantThrows with
                | true => simp [hte, emptyTrace]
                | false =>
                  cases hsid : o.sendMsgId <;>
                    cases hph : phoneTest text <;>
                    cases hmr : containsMarker o.aiReply <;>
                    simp [hte, hsend, hph, hmr, emptyTrace]

/-- C9 witness: a processed message whose reply carries bold markdown — the
dispatched text keeps the `**`, the delivered text has it stripped. -/
theorem delivered_is_cleanMarkdown_witness :
    (handleEvent 100 emptyDb ⟨"Анна", "Иванова", false, false, "**Привет**",
        "sum", "vk", false, false, false, some 42, 1000⟩
        (.messageNew 1 555 777 "привет")).2.delivered.map Prod.snd
      = (handleEvent 100 emptyDb ⟨"Анна", "Иванова", false, false, "**Привет**",
          "sum", "vk", false, false, false, some 42, 1000⟩
          (.messageNew 1 555 777 "привет")).2.dispatched.map cleanMarkdown
  ∧ (handleEvent 100 emptyDb ⟨"Анна", "Иванова", false, false, "**Привет**",
        "sum", "vk", false, false, false, some 42, 1000⟩
        (.messageNew 1 555 777 "привет")).2.delivered = [(555, "Привет")]
  ∧ (handleEvent 100 emptyDb ⟨"Анна", "Иванова", false, false, "**Привет**",
        "sum", "vk", false, false, false, some 42, 1000⟩
        (.messageNew 1 555 777 "привет")).2.dispatched = ["**Привет**"] := by
  refine ⟨(delivered_is_cleanMarkdown_of_dispatched 100 emptyDb
    ⟨"Анна", "Иванова", false, false, "**Привет**", "sum", "vk",
      false, false, false, some 42, 1000⟩
    (.messageNew 1 555 777 "привет") rfl).1, by decide, by decide⟩
